import Mathlib

/-!
Shallow embedding of `src/scripts/pid_official.py`, a PID navigation
controller for a JetRacer ground vehicle, together with proofs of the
specification's claims about it.

Python floats are modelled as real numbers.  Calls to `time.time()` are
modelled by passing the current timestamp as an explicit argument: the
script reads the wall clock, which we treat as an external input stream.
-/

namespace PidOfficial

/-- Constant `ERR_EPSILON = 0.2` from the script (goal-reached deadband, m). -/
noncomputable def ERR_EPSILON : ℝ := 0.2

/-- Constant `HEADING_BIAS = 0.04` from the script (steering trim). -/
noncomputable def HEADING_BIAS : ℝ := 0.04

/-- Constant `X_ARG = 1` from the script (index of the x goal coordinate in argv). -/
def X_ARG : ℕ := 1

/-- Constant `Y_ARG = 2` from the script (index of the y goal coordinate in argv). -/
def Y_ARG : ℕ := 2

/-- State of the Python class `PIDController`: the three gains fixed at
construction and the mutable fields `integral`, `last_error`, `last_time`. -/
structure PIDController where
  kp : ℝ
  ki : ℝ
  kd : ℝ
  integral : ℝ
  last_error : ℝ
  last_time : ℝ

/-- `PIDController.__init__(kp, ki, kd)`: gains are stored, `integral = 0`,
`last_error = 0`, `last_time = time.time()` (the timestamp `now` at
construction). -/
def PIDController.init (kp ki kd now : ℝ) : PIDController :=
  ⟨kp, ki, kd, 0, 0, now⟩

/-- `PIDController.reset()`: zeroes `integral` and `last_error` and sets
`last_time = time.time()` (the timestamp `now` at the call). -/
def PIDController.reset (c : PIDController) (now : ℝ) : PIDController :=
  ⟨c.kp, c.ki, c.kd, 0, 0, now⟩

/-- `PIDController.update(error)`, with `current_time` the value read from
`time.time()`.  Returns the output together with the updated state. -/
noncomputable def PIDController.update (c : PIDController) (error current_time : ℝ) :
    ℝ × PIDController :=
  let dt := current_time - c.last_time
  let de := error - c.last_error
  let integral := c.integral + error * dt
  let derivative := if dt > 0 then de / dt else 0
  let output := c.kp * error + c.ki * integral + c.kd * derivative
  (output, ⟨c.kp, c.ki, c.kd, integral, error, current_time⟩)

/-- A sequence of `update` calls on one controller, each given its error and
the timestamp `time.time()` returned during that call. -/
noncomputable def runUpdates (c : PIDController) : List (ℝ × ℝ) → PIDController
  | [] => c
  | et :: rest => runUpdates (c.update et.1 et.2).2 rest

/-- The successive values of `last_time` observed after each `update` call of
a sequence. -/
noncomputable def lastTimeTrace (c : PIDController) : List (ℝ × ℝ) → List ℝ
  | [] => []
  | et :: rest =>
      ((c.update et.1 et.2).2).last_time :: lastTimeTrace (c.update et.1 et.2).2 rest

/-- Outcome of running `main(argc, argv)`: it either prints the usage message
and returns before constructing `JetRacerController` (hence before any
subscription), raises an uncaught `IndexError` while reading `argv` (again
before any subscription), or constructs the controller — which subscribes to
the pose topic — and spins, with the given goal strings stored in `GOAL`. -/
inductive MainResult where
  | usage : MainResult
  | indexError : MainResult
  | started : String → String → MainResult

/-- `main(argc, argv)` from the script (called as `main(len(sys.argv), sys.argv)`):
`if argc != 2` it prints the usage message and returns; otherwise it assigns
`GOAL[0] = argv[X_ARG]` and `GOAL[1] = argv[Y_ARG]` (raising `IndexError`
when an index is out of range) and then constructs the controller and spins. -/
def main (argc : ℕ) (argv : List String) : MainResult :=
  if argc ≠ 2 then MainResult.usage
  else
    match argv[X_ARG]?, argv[Y_ARG]? with
    | some gx, some gy => MainResult.started gx gy
    | _, _ => MainResult.indexError

/-! ### Angle wrapping (`JetRacerController.angle_wrap`)

The Python method runs two `while` loops:
`while angle > math.pi: angle -= 2 * math.pi` followed by
`while angle < -math.pi: angle += 2 * math.pi`.  We embed each loop as a
well-founded recursion, with a companion function counting its iterations. -/

lemma ceil_sub_one_lt {x : ℝ} (hx : 0 < x) : ⌈x - 1⌉₊ < ⌈x⌉₊ := by
  have h1 : 1 ≤ ⌈x⌉₊ := Nat.one_le_ceil_iff.mpr hx
  have h2 : ⌈x - 1⌉₊ ≤ ⌈x⌉₊ - 1 := by
    apply Nat.ceil_le.mpr
    rw [Nat.cast_sub h1]
    push_cast
    linarith [Nat.le_ceil x]
  omega

lemma subMeasure_lt {a : ℝ} (h : a > Real.pi) :
    ⌈(a - 2 * Real.pi - Real.pi) / (2 * Real.pi)⌉₊ < ⌈(a - Real.pi) / (2 * Real.pi)⌉₊ := by
  have hpi := Real.pi_pos
  have h2 : (0 : ℝ) < 2 * Real.pi := by linarith
  have he : (a - 2 * Real.pi - Real.pi) / (2 * Real.pi)
      = (a - Real.pi) / (2 * Real.pi) - 1 := by
    field_simp
    ring
  rw [he]
  exact ceil_sub_one_lt (div_pos (by linarith) h2)

lemma addMeasure_lt {a : ℝ} (h : a < -Real.pi) :
    ⌈(-Real.pi - (a + 2 * Real.pi)) / (2 * Real.pi)⌉₊ < ⌈(-Real.pi - a) / (2 * Real.pi)⌉₊ := by
  have hpi := Real.pi_pos
  have h2 : (0 : ℝ) < 2 * Real.pi := by linarith
  have he : (-Real.pi - (a + 2 * Real.pi)) / (2 * Real.pi)
      = (-Real.pi - a) / (2 * Real.pi) - 1 := by
    field_simp
    ring
  rw [he]
  exact ceil_sub_one_lt (div_pos (by linarith) h2)

/-- The first loop of `angle_wrap`:
`while angle > math.pi: angle -= 2 * math.pi`. -/
noncomputable def subLoop (a : ℝ) : ℝ :=
  if h : a > Real.pi then subLoop (a - 2 * Real.pi) else a
termination_by ⌈(a - Real.pi) / (2 * Real.pi)⌉₊
decreasing_by exact subMeasure_lt h

/-- The second loop of `angle_wrap`:
`while angle < -math.pi: angle += 2 * math.pi`. -/
noncomputable def addLoop (a : ℝ) : ℝ :=
  if h : a < -Real.pi then addLoop (a + 2 * Real.pi) else a
termination_by ⌈(-Real.pi - a) / (2 * Real.pi)⌉₊
decreasing_by exact addMeasure_lt h

/-- `JetRacerController.angle_wrap(angle)`: the two loops in sequence. -/
noncomputable def angle_wrap (a : ℝ) : ℝ := addLoop (subLoop a)

/-- Number of iterations executed by the first `angle_wrap` loop. -/
noncomputable def subLoopSteps (a : ℝ) : ℕ :=
  if h : a > Real.pi then subLoopSteps (a - 2 * Real.pi) + 1 else 0
termination_by ⌈(a - Real.pi) / (2 * Real.pi)⌉₊
decreasing_by exact subMeasure_lt h

/-- Number of iterations executed by the second `angle_wrap` loop. -/
noncomputable def addLoopSteps (a : ℝ) : ℕ :=
  if h : a < -Real.pi then addLoopSteps (a + 2 * Real.pi) + 1 else 0
termination_by ⌈(-Real.pi - a) / (2 * Real.pi)⌉₊
decreasing_by exact addMeasure_lt h

/-- Total number of loop iterations executed by `angle_wrap a`. -/
noncomputable def angle_wrapSteps (a : ℝ) : ℕ :=
  subLoopSteps a + addLoopSteps (subLoop a)

theorem subLoop_le_pi (a : ℝ) : subLoop a ≤ Real.pi := by
  by_cases h : a > Real.pi
  · rw [subLoop, dif_pos h]
    exact subLoop_le_pi (a - 2 * Real.pi)
  · rw [subLoop, dif_neg h]
    linarith [not_lt.mp h]
termination_by ⌈(a - Real.pi) / (2 * Real.pi)⌉₊
decreasing_by exact subMeasure_lt h

theorem neg_pi_le_addLoop (a : ℝ) : -Real.pi ≤ addLoop a := by
  by_cases h : a < -Real.pi
  · rw [addLoop, dif_pos h]
    exact neg_pi_le_addLoop (a + 2 * Real.pi)
  · rw [addLoop, dif_neg h]
    linarith [not_lt.mp h]
termination_by ⌈(-Real.pi - a) / (2 * Real.pi)⌉₊
decreasing_by exact addMeasure_lt h

theorem addLoop_le_pi (a : ℝ) (ha : a ≤ Real.pi) : addLoop a ≤ Real.pi := by
  have hpi := Real.pi_pos
  by_cases h : a < -Real.pi
  · rw [addLoop, dif_pos h]
    exact addLoop_le_pi (a + 2 * Real.pi) (by linarith)
  · rw [addLoop, dif_neg h]
    exact ha
termination_by ⌈(-Real.pi - a) / (2 * Real.pi)⌉₊
decreasing_by exact addMeasure_lt h

theorem subLoop_eq_sub (a : ℝ) :
    subLoop a = a - 2 * Real.pi * (subLoopSteps a : ℝ) := by
  by_cases h : a > Real.pi
  · rw [subLoop, dif_pos h, subLoopSteps, dif_pos h]
    have ih := subLoop_eq_sub (a - 2 * Real.pi)
    push_cast
    linarith
  · rw [subLoop, dif_neg h, subLoopSteps, dif_neg h]
    simp
termination_by ⌈(a - Real.pi) / (2 * Real.pi)⌉₊
decreasing_by exact subMeasure_lt h

theorem addLoop_eq_add (a : ℝ) :
    addLoop a = a + 2 * Real.pi * (addLoopSteps a : ℝ) := by
  by_cases h : a < -Real.pi
  · rw [addLoop, dif_pos h, addLoopSteps, dif_pos h]
    have ih := addLoop_eq_add (a + 2 * Real.pi)
    push_cast
    linarith
  · rw [addLoop, dif_neg h, addLoopSteps, dif_neg h]
    simp
termination_by ⌈(-Real.pi - a) / (2 * Real.pi)⌉₊
decreasing_by exact addMeasure_lt h

theorem subLoopSteps_bound (a : ℝ) (h1 : 1 ≤ subLoopSteps a) :
    2 * Real.pi * (subLoopSteps a : ℝ) < a + Real.pi := by
  have hpi := Real.pi_pos
  by_cases h : a > Real.pi
  · rw [subLoopSteps, dif_pos h]
    by_cases h2 : 1 ≤ subLoopSteps (a - 2 * Real.pi)
    · have ih := subLoopSteps_bound (a - 2 * Real.pi) h2
      push_cast
      linarith
    · have h0 : subLoopSteps (a - 2 * Real.pi) = 0 := by omega
      rw [h0]
      push_cast
      linarith
  · rw [subLoopSteps, dif_neg h] at h1
    omega
termination_by ⌈(a - Real.pi) / (2 * Real.pi)⌉₊
decreasing_by exact subMeasure_lt h

theorem addLoopSteps_bound (a : ℝ) (h1 : 1 ≤ addLoopSteps a) :
    2 * Real.pi * (addLoopSteps a : ℝ) < Real.pi - a := by
  have hpi := Real.pi_pos
  by_cases h : a < -Real.pi
  · rw [addLoopSteps, dif_pos h]
    by_cases h2 : 1 ≤ addLoopSteps (a + 2 * Real.pi)
    · have ih := addLoopSteps_bound (a + 2 * Real.pi) h2
      push_cast
      linarith
    · have h0 : addLoopSteps (a + 2 * Real.pi) = 0 := by omega
      rw [h0]
      push_cast
      linarith
  · rw [addLoopSteps, dif_neg h] at h1
    omega
termination_by ⌈(-Real.pi - a) / (2 * Real.pi)⌉₊
decreasing_by exact addMeasure_lt h

theorem subLoopSteps_eq_zero {a : ℝ} (h : ¬ a > Real.pi) : subLoopSteps a = 0 := by
  rw [subLoopSteps, dif_neg h]

theorem addLoopSteps_eq_zero {a : ℝ} (h : ¬ a < -Real.pi) : addLoopSteps a = 0 := by
  rw [addLoopSteps, dif_neg h]

theorem angle_wrap_neg_pi : angle_wrap (-Real.pi) = -Real.pi := by
  have hpi := Real.pi_pos
  unfold angle_wrap
  rw [subLoop, dif_neg (by linarith), addLoop, dif_neg (lt_irrefl _)]

/-! ### Geometry and the pose handler (`JetRacerController.pose_callback`) -/

/-- `math.atan2(y, x)`, embedded as the argument of the complex number
`x + y i`, which follows the same convention (value in `(-π, π]`,
`atan2(0, 0) = 0`). -/
noncomputable def atan2 (y x : ℝ) : ℝ :=
  Complex.arg (Complex.ofReal x + Complex.ofReal y * Complex.I)

/-- `math.hypot(dx, dy)`: the Euclidean norm `sqrt (dx² + dy²)`. -/
noncomputable def hypot (dx dy : ℝ) : ℝ := Real.sqrt (dx ^ 2 + dy ^ 2)

/-- `euler_from_quaternion(x, y, z, w)` from the script: returns
`(roll_x, pitch_y, yaw_z)`. -/
noncomputable def euler_from_quaternion (x y z w : ℝ) : ℝ × ℝ × ℝ :=
  let t0 := 2 * (w * x + y * z)
  let t1 := 1 - 2 * (x * x + y * y)
  let roll_x := atan2 t0 t1
  let t2 := 2 * (w * y - z * x)
  let t2a := if t2 > 1 then 1 else t2
  let t2b := if t2a < -1 then -1 else t2a
  let pitch_y := Real.arcsin t2b
  let t3 := 2 * (w * z + x * y)
  let t4 := 1 - 2 * (y * y + z * z)
  let yaw_z := atan2 t3 t4
  (roll_x, pitch_y, yaw_z)

/-- The fields of an incoming `PoseStamped` message read by `pose_callback`:
position `(x, y)` and orientation quaternion `(qx, qy, qz, qw)`. -/
structure Pose where
  x : ℝ
  y : ℝ
  qx : ℝ
  qy : ℝ
  qz : ℝ
  qw : ℝ

/-- State of the Python class `JetRacerController`: the goal point and the
two PID controllers.  The publishers and the subscription are transport
plumbing and carry no state that the control computation reads. -/
structure JetRacerController where
  goal : ℝ × ℝ
  heading_pid : PIDController
  distance_pid : PIDController

/-- `JetRacerController.__init__`: stores the goal and constructs
`PIDController(0.3, 0.0, 0.02)` (heading) and `PIDController(0.25, 0.0, 0.4)`
(distance), with `t1` and `t2` the `time.time()` values read in the two
constructor calls. -/
noncomputable def JetRacerController.init (goal : ℝ × ℝ) (t1 t2 : ℝ) :
    JetRacerController :=
  ⟨goal, PIDController.init 0.3 0.0 0.02 t1, PIDController.init 0.25 0.0 0.4 t2⟩

/-- The yaw extracted from the orientation of a pose message:
`_, _, yaw = euler_from_quaternion(q.x, q.y, q.z, q.w)`. -/
noncomputable def yaw_of (msg : Pose) : ℝ :=
  (euler_from_quaternion msg.qx msg.qy msg.qz msg.qw).2.2

/-- `goal_dist = math.hypot(dx, dy)` computed in `pose_callback`, with
`dx = goal[0] - x` and `dy = goal[1] - y`. -/
noncomputable def goal_dist_of (c : JetRacerController) (msg : Pose) : ℝ :=
  hypot (c.goal.1 - msg.x) (c.goal.2 - msg.y)

/-- `goal_heading = math.atan2(dy, dx)` computed in `pose_callback`. -/
noncomputable def goal_heading_of (c : JetRacerController) (msg : Pose) : ℝ :=
  atan2 (c.goal.2 - msg.y) (c.goal.1 - msg.x)

/-- `heading_error = self.angle_wrap(goal_heading - yaw)` computed in
`pose_callback`. -/
noncomputable def heading_error_of (c : JetRacerController) (msg : Pose) : ℝ :=
  angle_wrap (goal_heading_of c msg - yaw_of msg)

/-- `JetRacerController.pose_callback(msg)`: computes the two errors, runs
both PID updates (with `t1`, `t2` the `time.time()` values read inside them),
applies bias and clamping, and publishes `(steering, throttle)`.  Returns the
published pair together with the updated controller state. -/
noncomputable def pose_callback (c : JetRacerController) (msg : Pose) (t1 t2 : ℝ) :
    (ℝ × ℝ) × JetRacerController :=
  let hres := c.heading_pid.update (heading_error_of c msg) t1
  let dres := c.distance_pid.update (goal_dist_of c msg) t2
  let steering := max (min (hres.1 + HEADING_BIAS) 1.0) (-1.0)
  let throttle := if goal_dist_of c msg > ERR_EPSILON then max (min dres.1 0.2) 0.0 else 0.0
  ((steering, throttle), ⟨c.goal, hres.2, dres.2⟩)

theorem atan2_zero_zero : atan2 0 0 = 0 := by
  simp [atan2]

theorem atan2_zero_neg_one : atan2 0 (-1) = Real.pi := by
  unfold atan2
  simp [Complex.arg_neg_one]

/-! ### Claims -/

/-- Claim C1 (code bug): the startup check `if argc != 2` is off by one:
`sys.argv` includes the program name, so the documented correct invocation
`python3 pid_official.py x y` arrives with `argc = 3` and is rejected with
the usage message, while a single-coordinate call (`argc = 2`) passes the
check and then raises `IndexError` at `argv[Y_ARG]` without a usage message.
Consequently `main` never constructs the controller (never subscribes) for
any command line: the claimed fail-fast-on-bad-input behaviour is replaced
by fail-always. -/
theorem C1_argc_check_rejects_documented_usage :
    main (["pid_official.py", "1.0", "2.0"] : List String).length
        ["pid_official.py", "1.0", "2.0"] = MainResult.usage ∧
    ∀ argv gx gy, main argv.length argv ≠ MainResult.started gx gy := by
  constructor
  · rfl
  · intro argv gx gy
    unfold main
    by_cases h : argv.length = 2
    · have h2 : argv[Y_ARG]? = none := by
        apply List.getElem?_eq_none
        rw [h]
        decide
      rw [if_neg (by omega)]
      rw [h2]
      cases hx : argv[X_ARG]? <;> simp
    · rw [if_pos (by omega)]
      simp

/-- Claim C2 (counterexample): at the concrete input `-π`, `angle_wrap`
returns `-π`, which lies outside the half-open interval `(-π, π]` asserted
by the claim (both loop guards are strict, so `-π` is left unchanged). -/
theorem C2_counterexample :
    angle_wrap (-Real.pi) = -Real.pi ∧
    angle_wrap (-Real.pi) ∉ Set.Ioc (-Real.pi) Real.pi := by
  refine ⟨angle_wrap_neg_pi, ?_⟩
  rw [angle_wrap_neg_pi]
  simp

/-- Claim C2 (amended): for every real `a`, `angle_wrap a` lies in the
closed interval `[-π, π]` and is congruent to `a` modulo `2π`. -/
theorem C2_wrap_range_and_congruence (a : ℝ) :
    angle_wrap a ∈ Set.Icc (-Real.pi) Real.pi ∧
    ∃ k : ℤ, angle_wrap a = a + 2 * Real.pi * (k : ℝ) := by
  constructor
  · exact Set.mem_Icc.mpr ⟨neg_pi_le_addLoop _, addLoop_le_pi _ (subLoop_le_pi a)⟩
  · refine ⟨(addLoopSteps (subLoop a) : ℤ) - (subLoopSteps a : ℤ), ?_⟩
    have h1 := subLoop_eq_sub a
    have h2 := addLoop_eq_add (subLoop a)
    unfold angle_wrap
    rw [h2, h1]
    push_cast
    ring

/-- Claim C3 (counterexample): a pose exactly at the goal `(0, 0)` with
orientation quaternion `(0, 0, 1, 0)` (yaw `= atan2(0, -1) = π`) yields
`heading_error = angle_wrap(0 - π) = -π ≠ 0`: the heading error at the goal
is not 0 for every orientation. -/
theorem C3_counterexample :
    heading_error_of
        ⟨(0, 0), PIDController.init 0.3 0 0.02 0, PIDController.init 0.25 0 0.4 0⟩
        ⟨0, 0, 0, 0, 1, 0⟩ ≠ 0 := by
  have hyaw : yaw_of ⟨0, 0, 0, 0, 1, 0⟩ = Real.pi := by
    show atan2 (2 * (0 * 1 + 0 * 0)) (1 - 2 * (0 * 0 + 1 * 1)) = Real.pi
    convert atan2_zero_neg_one using 2 <;> norm_num
  have hgh : goal_heading_of
      ⟨(0, 0), PIDController.init 0.3 0 0.02 0, PIDController.init 0.25 0 0.4 0⟩
      ⟨0, 0, 0, 0, 1, 0⟩ = 0 := by
    show atan2 (0 - 0) (0 - 0) = 0
    convert atan2_zero_zero using 2 <;> norm_num
  unfold heading_error_of
  rw [hyaw, hgh, zero_sub, angle_wrap_neg_pi]
  exact neg_ne_zero.mpr Real.pi_ne_zero

/-- Claim C3 (amended): when the pose position equals the goal, the code's
deterministic convention is `goal_heading = atan2(0, 0) = 0`, and the
heading error equals `angle_wrap (0 - yaw)` — the wrapped negated yaw —
which is 0 for yaw congruent to 0 (mod 2π) but not for every orientation. -/
theorem C3_heading_error_at_goal (c : JetRacerController) (msg : Pose)
    (hx : msg.x = c.goal.1) (hy : msg.y = c.goal.2) :
    goal_heading_of c msg = 0 ∧
    heading_error_of c msg = angle_wrap (0 - yaw_of msg) := by
  have h1 : goal_heading_of c msg = 0 := by
    unfold goal_heading_of
    rw [hx, hy, sub_self, sub_self]
    exact atan2_zero_zero
  refine ⟨h1, ?_⟩
  unfold heading_error_of
  rw [h1]

/-- Witness for the amended claim C3 at a concrete pose sitting exactly on
the goal. -/
theorem C3_heading_error_at_goal_witness :
    goal_heading_of
        ⟨(0, 0), PIDController.init 0.3 0 0.02 0, PIDController.init 0.25 0 0.4 0⟩
        ⟨0, 0, 0, 0, 0, 1⟩ = 0 ∧
    heading_error_of
        ⟨(0, 0), PIDController.init 0.3 0 0.02 0, PIDController.init 0.25 0 0.4 0⟩
        ⟨0, 0, 0, 0, 0, 1⟩
      = angle_wrap (0 - yaw_of ⟨0, 0, 0, 0, 0, 1⟩) :=
  C3_heading_error_at_goal _ _ rfl rfl

/-- Claim C4: whenever the computed distance error is at most
`ERR_EPSILON = 0.2`, the published throttle is exactly 0, whatever the raw
output of the distance PID is. -/
theorem C4_deadband (c : JetRacerController) (msg : Pose) (t1 t2 : ℝ)
    (h : goal_dist_of c msg ≤ ERR_EPSILON) :
    ((pose_callback c msg t1 t2).1).2 = 0 := by
  show (if goal_dist_of c msg > ERR_EPSILON
      then max (min ((c.distance_pid.update (goal_dist_of c msg) t2).1) 0.2) 0.0
      else 0.0) = 0
  rw [if_neg (not_lt.mpr h)]
  norm_num

/-- Witness for claim C4: a pose exactly on the goal has distance error 0
and gets throttle 0. -/
theorem C4_deadband_witness :
    ((pose_callback (JetRacerController.init (0, 0) 0 0) ⟨0, 0, 0, 0, 0, 1⟩ 1 2).1).2 = 0 :=
  C4_deadband _ _ 1 2 (by
    show hypot (0 - 0) (0 - 0) ≤ ERR_EPSILON
    unfold hypot ERR_EPSILON
    norm_num [Real.sqrt_zero])

/-- Claim C5: for every pose, goal and accumulated PID state, the published
steering lies in `[-1.0, 1.0]` and the published throttle lies in
`[0.0, 0.2]`. -/
theorem C5_outputs_clamped (c : JetRacerController) (msg : Pose) (t1 t2 : ℝ) :
    ((pose_callback c msg t1 t2).1).1 ∈ Set.Icc (-1.0 : ℝ) 1.0 ∧
    ((pose_callback c msg t1 t2).1).2 ∈ Set.Icc (0.0 : ℝ) 0.2 := by
  constructor
  · show max (min ((c.heading_pid.update (heading_error_of c msg) t1).1 + HEADING_BIAS) 1.0)
        (-1.0) ∈ Set.Icc (-1.0 : ℝ) 1.0
    rw [Set.mem_Icc]
    exact ⟨le_max_right _ _, max_le (min_le_right _ _) (by norm_num)⟩
  · show (if goal_dist_of c msg > ERR_EPSILON
        then max (min ((c.distance_pid.update (goal_dist_of c msg) t2).1) 0.2) 0.0
        else 0.0) ∈ Set.Icc (0.0 : ℝ) 0.2
    rw [Set.mem_Icc]
    split
    · exact ⟨le_max_right _ _, max_le (min_le_right _ _) (by norm_num)⟩
    · norm_num

/-- Claim C6: one `update(error)` call, with `dt = t - last_time`: the
integral becomes `integral + error * dt`; `last_error` and `last_time` are
overwritten; the output is `kp*error + ki*integral_new + kd*derivative`
where the derivative is `(error - last_error)/dt` when `dt > 0` and 0
otherwise. -/
theorem C6_update_semantics (c : PIDController) (e t : ℝ) :
    ((c.update e t).2).integral = c.integral + e * (t - c.last_time) ∧
    ((c.update e t).2).last_error = e ∧
    ((c.update e t).2).last_time = t ∧
    (c.update e t).1
      = c.kp * e + c.ki * (c.integral + e * (t - c.last_time))
        + c.kd * (if t - c.last_time > 0
            then (e - c.last_error) / (t - c.last_time) else 0) :=
  ⟨rfl, rfl, rfl, rfl⟩

/-- Claim C7: `reset()` followed by `update(e)` behaves exactly like
`update(e)` on a freshly constructed controller with the same gains whose
construction time is the reset time: same output and same resulting state. -/
theorem C7_reset_equals_fresh (c : PIDController) (t0 e t : ℝ) :
    (c.reset t0).update e t = (PIDController.init c.kp c.ki c.kd t0).update e t := rfl

/-- Claim C8: `angle_wrap` terminates on every real input — it is a total
function in this embedding — and its total loop iteration count is bounded
by `|a| / 2π + 1`. -/
theorem C8_iteration_bound (a : ℝ) :
    (angle_wrapSteps a : ℝ) ≤ |a| / (2 * Real.pi) + 1 := by
  have hpi := Real.pi_pos
  have h2p : (0 : ℝ) < 2 * Real.pi := by linarith
  unfold angle_wrapSteps
  by_cases hgt : a > Real.pi
  · have h1 : 1 ≤ subLoopSteps a := by
      rw [subLoopSteps, dif_pos hgt]
      omega
    have hb := subLoopSteps_bound a h1
    have hzero : addLoopSteps (subLoop a) = 0 := by
      apply addLoopSteps_eq_zero
      rw [subLoop_eq_sub a]
      linarith
    rw [hzero]
    rw [abs_of_pos (by linarith : (0 : ℝ) < a)]
    push_cast
    rw [← mul_le_mul_left h2p]
    have hexp : 2 * Real.pi * (a / (2 * Real.pi) + 1) = a + 2 * Real.pi := by
      field_simp
    rw [hexp]
    linarith
  · by_cases hlt : a < -Real.pi
    · have hs0 : subLoopSteps a = 0 := subLoopSteps_eq_zero hgt
      have hsub : subLoop a = a := by rw [subLoop, dif_neg hgt]
      rw [hs0, hsub]
      have h1 : 1 ≤ addLoopSteps a := by
        rw [addLoopSteps, dif_pos hlt]
        omega
      have hb := addLoopSteps_bound a h1
      rw [abs_of_neg (by linarith : a < 0)]
      push_cast
      rw [← mul_le_mul_left h2p]
      have hexp : 2 * Real.pi * (-a / (2 * Real.pi) + 1) = -a + 2 * Real.pi := by
        field_simp
      rw [hexp]
      linarith
    · have hs0 : subLoopSteps a = 0 := subLoopSteps_eq_zero hgt
      have hsub : subLoop a = a := by rw [subLoop, dif_neg hgt]
      have ha0 : addLoopSteps a = 0 := addLoopSteps_eq_zero hlt
      rw [hs0, hsub, ha0]
      push_cast
      positivity

/-- Claim C9: across any sequence of `update` calls whose wall-clock
readings are non-decreasing (and start no earlier than the stored
`last_time`), the successive values of `last_time` form a non-decreasing
chain. -/
theorem C9_last_time_monotone (c : PIDController) (l : List (ℝ × ℝ))
    (h : List.Chain (fun u v : ℝ => u ≤ v) c.last_time (l.map Prod.snd)) :
    List.Chain (fun u v : ℝ => u ≤ v) c.last_time (lastTimeTrace c l) := by
  induction l generalizing c with
  | nil => exact List.Chain.nil
  | cons et rest ih =>
      rw [List.map_cons, List.chain_cons] at h
      rw [lastTimeTrace, List.chain_cons]
      exact ⟨h.1, ih _ h.2⟩

/-- Witness for claim C9 on a concrete two-update run with increasing
timestamps. -/
theorem C9_last_time_monotone_witness :
    List.Chain (fun u v : ℝ => u ≤ v) (PIDController.init 1 1 1 0).last_time
      (lastTimeTrace (PIDController.init 1 1 1 0) [(1, 2), (1, 3)]) :=
  C9_last_time_monotone _ _ (by
    rw [List.map_cons, List.map_cons, List.map_nil, List.chain_cons, List.chain_cons]
    refine ⟨?_, ?_, List.Chain.nil⟩ <;> norm_num [PIDController.init])

/-- Claim C10: when `dt = t - last_time ≤ 0`, the integral is still changed
by `error * dt` (strictly decreasing when `dt < 0` and `error > 0`),
`last_error` and `last_time` are still overwritten, and only the derivative
term is suppressed from the output. -/
theorem C10_nonpositive_dt_still_integrates (c : PIDController) (e t : ℝ)
    (h : t ≤ c.last_time) :
    ((c.update e t).2).integral = c.integral + e * (t - c.last_time) ∧
    ((c.update e t).2).last_error = e ∧
    ((c.update e t).2).last_time = t ∧
    (c.update e t).1 = c.kp * e + c.ki * (c.integral + e * (t - c.last_time)) ∧
    (t < c.last_time → 0 < e → ((c.update e t).2).integral < c.integral) := by
  have hdt : ¬ t - c.last_time > 0 := by linarith
  refine ⟨rfl, rfl, rfl, ?_, ?_⟩
  · show c.kp * e + c.ki * (c.integral + e * (t - c.last_time))
        + c.kd * (if t - c.last_time > 0
            then (e - c.last_error) / (t - c.last_time) else 0)
      = c.kp * e + c.ki * (c.integral + e * (t - c.last_time))
    rw [if_neg hdt]
    ring
  · intro h1 h2
    show c.integral + e * (t - c.last_time) < c.integral
    linarith [mul_neg_of_pos_of_neg h2 (sub_neg.mpr h1)]

/-- Witness for claim C10: a controller whose `last_time` is 10 updated at
timestamp 5 (so `dt = -5 < 0`) with error 1. -/
theorem C10_nonpositive_dt_witness :
    (((PIDController.init 1 1 1 10).update 1 5).2).integral
        = (PIDController.init 1 1 1 10).integral
          + 1 * (5 - (PIDController.init 1 1 1 10).last_time) ∧
    (((PIDController.init 1 1 1 10).update 1 5).2).last_error = 1 ∧
    (((PIDController.init 1 1 1 10).update 1 5).2).last_time = 5 ∧
    ((PIDController.init 1 1 1 10).update 1 5).1
        = (PIDController.init 1 1 1 10).kp * 1
          + (PIDController.init 1 1 1 10).ki
            * ((PIDController.init 1 1 1 10).integral
              + 1 * (5 - (PIDController.init 1 1 1 10).last_time)) ∧
    ((5 : ℝ) < (PIDController.init 1 1 1 10).last_time → (0 : ℝ) < 1 →
      (((PIDController.init 1 1 1 10).update 1 5).2).integral
        < (PIDController.init 1 1 1 10).integral) :=
  C10_nonpositive_dt_still_integrates (PIDController.init 1 1 1 10) 1 5 (by
    norm_num [PIDController.init])

end PidOfficial
